import Mathlib

/-!
# Verification of the Avito message-ingestion worker

Shallow embedding of the worker core of the repository:

* `src/avito_worker/agent_client.py` — `AgentClient.get_answer`
* `src/avito_worker/avito_api.py` — `AvitoAPIClient._request_with_retry`
* `src/avito_worker/worker.py` — `AvitoWorker._poll_avito_loop`,
  `AvitoWorker._process_message_direct`, `AvitoWorker._update_stats`
* `src/common/models.py` — `DialogState`, `WorkerStats`
* `src/common/redis_client.py` — the store wrapper methods

External collaborators (the HTTP platform, the agent stream, the raw
Redis connection) are modelled as oracles supplied in an environment
record; the worker's own control flow is translated line by line.
-/

namespace Avito

/-! ## Python string `strip` (as used by `AgentClient.get_answer`) -/

/-- ASCII whitespace characters recognised by Python `str.strip()`. -/
def isPySpace (c : Char) : Bool :=
  c = ' ' || c = '\t' || c = '\n' || c = '\r' || c = '\x0b' || c = '\x0c'

/-- Python `s.strip()`: drop leading and trailing whitespace. -/
def pyStrip (s : String) : String :=
  String.mk (((s.data.dropWhile isPySpace).reverse.dropWhile isPySpace).reverse)

/-! ## `AgentClient.get_answer` (src/avito_worker/agent_client.py, lines 78–113)

The agent stream is an oracle: either the list of chunks produced by
`self._astream_answer(user_message)` in arrival order, or the message of
the exception the stream raised. -/

/-- The fixed fallback answer of `AgentClient.get_answer` when the joined
stream is empty after `strip()`. -/
def fallbackAnswer : String :=
  "Извините, не удалось получить ответ. Попробуйте переформулировать вопрос."

/-- `AgentClient.get_answer`: join the streamed chunks, `strip()`, fall back
to `fallbackAnswer` when empty; wrap a stream exception into
`RuntimeError('Ошибка агента: ...')`. -/
def get_answer (stream : Except String (List String)) : Except String String :=
  match stream with
  | .error e => .error ("Ошибка агента: " ++ e)
  | .ok chunks =>
    let answer := pyStrip (String.join chunks)
    if answer = "" then .ok fallbackAnswer else .ok answer

/-! ## Message data and selection (worker.py, lines 96–129)

A fetched message dictionary, with the fields the worker reads.
`direction`, `is_read`, `created`, `author_id` are read with `.get` and
a default; `content` is checked to be a dict and its `text` read with
default `''`; `id` is read with `[...]`. -/

structure MsgData where
  id : String
  direction : String
  is_read : Bool
  content_is_dict : Bool
  text : String
  created : Int
  author_id : String
deriving Repr, DecidableEq

/-- The filter of worker.py lines 97–118: inbound (`direction == 'in'`),
unread (`not is_read`), `content` a dict, non-empty `text`. -/
def qualifies (m : MsgData) : Bool :=
  m.direction = "in" && !m.is_read && m.content_is_dict && decide (m.text ≠ "")

/-- Sort key comparison of worker.py line 124–126: ascending `created`. -/
def createdLE (a b : MsgData) : Bool :=
  decide (a.created ≤ b.created)

/-- Worker.py lines 96–129: filter to qualifying messages, sort ascending by
`created` (Python `list.sort` is stable; modelled by the stable
`List.mergeSort`), take the last element; `none` when no message qualifies. -/
def selectedMessage (msgs : List MsgData) : Option MsgData :=
  let q := msgs.filter qualifies
  match q with
  | [] => none
  | _ :: _ => (q.mergeSort createdLE).getLast?

/-! ## Data model (src/common/models.py) -/

/-- `DialogState` (models.py lines 40–56). Timestamps are abstract `Nat`
instants (`datetime.utcnow()` values). -/
structure DialogState where
  chat_id : String
  user_id : String
  last_message_id : Option String := none
  last_activity : Nat := 0
  message_count : Nat := 0
deriving Repr, DecidableEq

/-- `WorkerStats` (models.py lines 59–86); every field defaults to
zero / absent, matching the pydantic defaults. -/
structure WorkerStats where
  total_messages : Nat := 0
  completed_messages : Nat := 0
  failed_messages : Nat := 0
  active_dialogs : Nat := 0
  last_poll_time : Option Nat := none
  last_error : Option String := none
deriving Repr, DecidableEq

/-! ## State store (src/common/redis_client.py)

The raw Redis connection is modelled by an association list of dialog
records, an optional stats record, and failure flags: when a flag is
set, the corresponding raw operation raises, and the wrapper method's
`except` branch is taken. -/

structure RedisRaw where
  dialogs : List (String × DialogState) := []
  stats : Option WorkerStats := none
  failGet : Bool := false
  failSet : Bool := false
  failKeys : Bool := false
deriving Repr, DecidableEq

/-- Lookup of the per-conversation key `avito:dialog:<chat_id>`. -/
def lookupDialog : List (String × DialogState) → String → Option DialogState
  | [], _ => none
  | (k, v) :: rest, c => if k = c then some v else lookupDialog rest c

/-- Overwrite of the per-conversation key (Redis `SETEX` is a full-record
overwrite keyed by chat id). -/
def setDialog : List (String × DialogState) → String → DialogState → List (String × DialogState)
  | [], c, v => [(c, v)]
  | (k, w) :: rest, c, v =>
    if k = c then (c, v) :: rest else (k, w) :: setDialog rest c v

/-- `RedisClient.save_dialog_state` (redis_client.py lines 191–211): write
the record, `True` on success; on a raw failure the exception is caught
and `False` is returned, the store unchanged. -/
def save_dialog_state (raw : RedisRaw) (st : DialogState) : RedisRaw × Bool :=
  if raw.failSet then (raw, false)
  else ({ raw with dialogs := setDialog raw.dialogs st.chat_id st }, true)

/-- `RedisClient.get_dialog_state` (lines 213–233): the stored record, or
`None` when absent; on a raw failure the exception is caught and `None`
is returned. -/
def get_dialog_state (raw : RedisRaw) (chatId : String) : Option DialogState :=
  if raw.failGet then none else lookupDialog raw.dialogs chatId

/-- `RedisClient.get_active_dialogs_count` (lines 235–244): number of live
dialog keys; `0` when the raw `keys` call fails. -/
def get_active_dialogs_count (raw : RedisRaw) : Nat :=
  if raw.failKeys then 0 else raw.dialogs.length

/-- `RedisClient.save_stats` (lines 248–263): overwrite the single global
stats key, `True` on success, `False` (store unchanged) on failure. -/
def save_stats (raw : RedisRaw) (st : WorkerStats) : RedisRaw × Bool :=
  if raw.failSet then (raw, false) else ({ raw with stats := some st }, true)

/-- `RedisClient.get_stats` (lines 265–278): the stored record; a fresh
zero-initialised `WorkerStats()` when the key is absent or the raw read
fails. -/
def get_stats (raw : RedisRaw) : WorkerStats :=
  if raw.failGet then {} else (raw.stats).getD {}

/-! ## Worker environment and event trace -/

/-- A fetched chat dictionary; `chat.get('id')` modelled as `""` when the
key is absent or falsy. -/
structure ChatData where
  id : String := ""
deriving Repr, DecidableEq

/-- Oracles for the worker's external collaborators, plus the current
instant. `Except.error e` models the call raising an exception whose
`str` is `e`. -/
structure Env where
  getUnreadChats : Except String (List ChatData)
  getMessages : String → Except String (List MsgData)
  agentStream : String → Except String (List String)
  sendOk : String → String → Except String Unit
  now : Nat

/-- Observable actions of one poll cycle, in program order. -/
inductive Event where
  | markRead (chatId : String)
  | saveDialog (st : DialogState)
  | getAnswer (chatId : String) (text : String)
  | sendMessage (chatId : String) (text : String)
  | saveStats (st : WorkerStats)
deriving Repr, DecidableEq

/-! ## `AvitoWorker._update_stats` (worker.py lines 239–271) -/

/-- `_update_stats`: read stats (zeros on miss/failure), refresh the active
dialog count, apply the requested increments, set `last_poll_time` when
given, set `last_error` only when the string is truthy (Python
`if last_error:` — the empty string is skipped), save. Returns the
updated store and the stats record passed to `save_stats`. -/
def updateStats (raw : RedisRaw)
    (lastPoll : Option Nat) (lastErr : Option String)
    (incTotal incCompleted incFailed : Bool) : RedisRaw × WorkerStats :=
  let s0 := get_stats raw
  let s1 := { s0 with active_dialogs := get_active_dialogs_count raw }
  let s2 := if incTotal then { s1 with total_messages := s1.total_messages + 1 } else s1
  let s3 := if incCompleted then { s2 with completed_messages := s2.completed_messages + 1 } else s2
  let s4 := if incFailed then { s3 with failed_messages := s3.failed_messages + 1 } else s3
  let s5 := match lastPoll with
    | some t => { s4 with last_poll_time := some t }
    | none => s4
  let s6 := match lastErr with
    | some e => if e = "" then s5 else { s5 with last_error := some e }
    | none => s5
  ((save_stats raw s6).1, s6)

/-! ## `AvitoWorker._process_message_direct` (worker.py lines 174–237) -/

/-- `_process_message_direct`: look up or create the dialog state, set
`last_message_id`/`last_activity`, increment `message_count`, persist;
then call the agent and send the answer. The whole body is wrapped in
`try/except Exception`: an agent or send failure is absorbed into a
failed-stats update, never re-raised. -/
def processMessageDirect (env : Env) (raw : RedisRaw)
    (messageId chatId userId text : String) : RedisRaw × List Event :=
  let ds0 := match get_dialog_state raw chatId with
    | some ds => ds
    | none => { chat_id := chatId, user_id := userId, last_activity := env.now }
  let ds : DialogState := { ds0 with
    last_message_id := some messageId
    last_activity := env.now
    message_count := ds0.message_count + 1 }
  let raw1 := (save_dialog_state raw ds).1
  match get_answer (env.agentStream text) with
  | .error e =>
    let r := updateStats raw1 none (some e) true false true
    (r.1, [Event.saveDialog ds, Event.getAnswer chatId text, Event.saveStats r.2])
  | .ok answer =>
    match env.sendOk chatId answer with
    | .error e =>
      let r := updateStats raw1 none (some e) true false true
      (r.1, [Event.saveDialog ds, Event.getAnswer chatId text, Event.saveStats r.2])
    | .ok _ =>
      let r := updateStats raw1 none none true true false
      (r.1, [Event.saveDialog ds, Event.getAnswer chatId text,
             Event.sendMessage chatId answer, Event.saveStats r.2])

/-! ## One chat of the poll loop (worker.py lines 84–147) -/

/-- The body of the `for chat in unread_chats` loop for one chat: skip a
falsy id; fetch the chat's messages (`.error` models
`get_chat_messages` raising — that exception propagates out of the
loop); select the newest qualifying message; mark the chat read
(`mark_chat_as_read` catches all its exceptions internally and cannot
raise); process the selected message. -/
def processChat (env : Env) (raw : RedisRaw) (c : ChatData) :
    Except String (RedisRaw × List Event) :=
  if c.id = "" then .ok (raw, [])
  else
    match env.getMessages c.id with
    | .error e => .error e
    | .ok msgs =>
      match selectedMessage msgs with
      | none => .ok (raw, [])
      | some m =>
        let r := processMessageDirect env raw m.id c.id m.author_id m.text
        .ok (r.1, Event.markRead c.id :: r.2)

/-- The `for` loop over the unread chats. An exception from a chat's
message fetch aborts the loop: the store mutations made so far stand,
the remaining chats are not visited, and the exception text is returned
to the cycle-level handler. -/
def runChats (env : Env) : List ChatData → RedisRaw → RedisRaw × List Event × Option String
  | [], raw => (raw, [], none)
  | c :: rest, raw =>
    match processChat env raw c with
    | .error e => (raw, [], some e)
    | .ok (raw1, evs1) =>
      let r := runChats env rest raw1
      (r.1, evs1 ++ r.2.1, r.2.2)

/-- One iteration of `_poll_avito_loop`'s `while` body (worker.py lines
77–165): fetch the unread chats, run the chat loop, then either the
normal end-of-cycle stats update (`last_poll_time`) or, when an
exception escaped, the `except` branch's stats update
(`last_error=str(e)`, no increments). -/
def pollCycle (env : Env) (raw : RedisRaw) : RedisRaw × List Event :=
  match env.getUnreadChats with
  | .error e =>
    let r := updateStats raw none (some e) false false false
    (r.1, [Event.saveStats r.2])
  | .ok chats =>
    match runChats env chats raw with
    | (raw1, evs, none) =>
      let r := updateStats raw1 (some env.now) none false false false
      (r.1, evs ++ [Event.saveStats r.2])
    | (raw1, evs, some e) =>
      let r := updateStats raw1 none (some e) false false false
      (r.1, evs ++ [Event.saveStats r.2])

/-! ## `AvitoAPIClient._request_with_retry` (src/avito_worker/avito_api.py)

One call of `_request_with_retry` is driven by: the cached token (if
any), the outcome of a token acquisition inside `_ensure_token`, the
status of the first request, the outcome of the re-acquisition after a
401, and the status of the retried request. HTTP statuses are the
oracle's choice per attempt. -/

structure RetryEnv where
  cachedToken : Option String
  acquireFirst : Except String String
  status1 : Nat
  acquireAfter401 : Except String String
  status2 : Nat
deriving Repr

/-- Outcome of one `_request_with_retry` call: the surfaced result (final
status, or the raised error), the number of HTTP requests actually
sent, and the number of re-authentications performed after a 401. -/
structure RetryOutcome where
  result : Except String Nat
  requestsSent : Nat
  reauths : Nat
deriving Repr

/-- `httpx.Response.raise_for_status`: raises for any status `≥ 400`. -/
def raiseForStatus (s : Nat) : Except String Nat :=
  if 400 ≤ s then .error ("HTTPStatusError " ++ toString s) else .ok s

/-- `_request_with_retry` (avito_api.py lines 77–113): `_ensure_token`
(lazy acquisition only when no token is cached, lines 72–75); send the
request; on a 401 acquire a fresh token and resend once; finally
`raise_for_status`. -/
def requestWithRetry (env : RetryEnv) : RetryOutcome :=
  match (match env.cachedToken with
         | some t => Except.ok t
         | none => env.acquireFirst) with
  | .error e => { result := .error e, requestsSent := 0, reauths := 0 }
  | .ok _ =>
    if env.status1 = 401 then
      match env.acquireAfter401 with
      | .error e => { result := .error e, requestsSent := 1, reauths := 1 }
      | .ok _ =>
        { result := raiseForStatus env.status2, requestsSent := 2, reauths := 1 }
    else
      { result := raiseForStatus env.status1, requestsSent := 1, reauths := 0 }

/-! ## Trace predicates used by the claims -/

/-- `isSendFor c e`: is `e` a reply sent into conversation `c`? -/
def isSendFor (c : String) : Event → Bool
  | Event.sendMessage c2 _ => c2 = c
  | _ => false

/-- Each answer-generation or reply-send event for conversation `c` in the
trace is preceded by a mark-read acknowledgement of `c`; `seen` records
whether such an acknowledgement has already occurred. -/
def ackedFrom (c : String) : Bool → List Event → Bool
  | _, [] => true
  | seen, Event.markRead c2 :: rest => ackedFrom c (seen || c2 = c) rest
  | seen, Event.getAnswer c2 _ :: rest => (seen || !(c2 = c : Bool)) && ackedFrom c seen rest
  | seen, Event.sendMessage c2 _ :: rest => (seen || !(c2 = c : Bool)) && ackedFrom c seen rest
  | seen, Event.saveDialog _ :: rest => ackedFrom c seen rest
  | seen, Event.saveStats _ :: rest => ackedFrom c seen rest

/-- Whether the trace contains a mark-read acknowledgement of `c`. -/
def hasMarkRead (c : String) (evs : List Event) : Bool :=
  evs.any fun e => match e with
    | Event.markRead c2 => c2 = c
    | _ => false

/-- Fold of `_process_message_direct` over the inbound turns of a single
conversation (each turn is a pair of message id and text); the store
evolution of processing K turns across any number of cycles. -/
def processTurns (env : Env) (chatId userId : String)
    (turns : List (String × String)) (raw : RedisRaw) : RedisRaw :=
  List.foldl (fun r t => (processMessageDirect env r t.1 chatId userId t.2).1) raw turns

/-! ## Concrete fixtures for witnesses and counterexamples -/

/-- An inbound unread message "Hi" at instant 1. -/
def msgHi : MsgData :=
  { id := "m1", direction := "in", is_read := false, content_is_dict := true,
    text := "Hi", created := 1, author_id := "u1" }

/-- An inbound unread message "Price?" at instant 2. -/
def msgPrice : MsgData :=
  { id := "m2", direction := "in", is_read := false, content_is_dict := true,
    text := "Price?", created := 2, author_id := "u1" }

/-- One unread chat with the two messages above; healthy collaborators. -/
def envOneChat : Env :=
  { getUnreadChats := .ok [{ id := "c1" }]
    getMessages := fun cid => if cid = "c1" then .ok [msgHi, msgPrice] else .error "no such chat"
    agentStream := fun _ => .ok ["Answer"]
    sendOk := fun _ _ => .ok ()
    now := 10 }

/-- Two unread chats; fetching the first chat's messages raises, the second
chat has a qualifying message. -/
def envFetchBoom : Env :=
  { getUnreadChats := .ok [{ id := "c1" }, { id := "c2" }]
    getMessages := fun cid => if cid = "c2" then .ok [msgPrice] else .error "boom"
    agentStream := fun _ => .ok ["Answer"]
    sendOk := fun _ _ => .ok ()
    now := 10 }

/-- One unread chat whose agent stream raises. -/
def envAgentBoom : Env :=
  { getUnreadChats := .ok [{ id := "c1" }]
    getMessages := fun cid => if cid = "c1" then .ok [msgPrice] else .error "no such chat"
    agentStream := fun _ => .error "stream down"
    sendOk := fun _ _ => .ok ()
    now := 10 }

/-- An empty, healthy store. -/
def rawEmpty : RedisRaw := {}

/-- An outbound message: fetched but not qualifying. -/
def msgOut : MsgData :=
  { id := "m3", direction := "out", is_read := false, content_is_dict := true,
    text := "Reply", created := 3, author_id := "seller" }

/-- One unread chat whose only fetched message is outbound. -/
def envOnlyOutgoing : Env :=
  { getUnreadChats := .ok [{ id := "c3" }]
    getMessages := fun cid => if cid = "c3" then .ok [msgOut] else .error "no such chat"
    agentStream := fun _ => .ok ["Answer"]
    sendOk := fun _ _ => .ok ()
    now := 10 }

/-- A store whose every raw operation fails. -/
def rawAllFail : RedisRaw :=
  { dialogs := [], stats := none, failGet := true, failSet := true, failKeys := true }

/-- A cached token, first request 401, successful re-auth, second request
401 again. -/
def retry401Twice : RetryEnv :=
  { cachedToken := some "tok", acquireFirst := .error "unused",
    status1 := 401, acquireAfter401 := .ok "tok2", status2 := 401 }

/-! # Helper lemmas -/

theorem lookup_setDialog_self (l : List (String × DialogState)) (c : String) (v : DialogState) :
    lookupDialog (setDialog l c v) c = some v := by
  induction l with
  | nil => simp [setDialog, lookupDialog]
  | cons p rest ih =>
    by_cases h : p.1 = c
    · simp [setDialog, h, lookupDialog]
    · simp [setDialog, h, lookupDialog, ih]

@[simp] theorem save_stats_fst_dialogs (raw : RedisRaw) (st : WorkerStats) :
    ((save_stats raw st).1).dialogs = raw.dialogs := by
  simp only [save_stats]; split <;> rfl

@[simp] theorem save_stats_fst_failGet (raw : RedisRaw) (st : WorkerStats) :
    ((save_stats raw st).1).failGet = raw.failGet := by
  simp only [save_stats]; split <;> rfl

@[simp] theorem save_stats_fst_failSet (raw : RedisRaw) (st : WorkerStats) :
    ((save_stats raw st).1).failSet = raw.failSet := by
  simp only [save_stats]; split <;> rfl

@[simp] theorem save_stats_fst_failKeys (raw : RedisRaw) (st : WorkerStats) :
    ((save_stats raw st).1).failKeys = raw.failKeys := by
  simp only [save_stats]; split <;> rfl

@[simp] theorem updateStats_fst_dialogs (raw : RedisRaw) (p : Option Nat) (e : Option String)
    (t c f : Bool) : ((updateStats raw p e t c f).1).dialogs = raw.dialogs := by
  simp [updateStats]

@[simp] theorem updateStats_fst_failGet (raw : RedisRaw) (p : Option Nat) (e : Option String)
    (t c f : Bool) : ((updateStats raw p e t c f).1).failGet = raw.failGet := by
  simp [updateStats]

@[simp] theorem updateStats_fst_failSet (raw : RedisRaw) (p : Option Nat) (e : Option String)
    (t c f : Bool) : ((updateStats raw p e t c f).1).failSet = raw.failSet := by
  simp [updateStats]

@[simp] theorem updateStats_fst_failKeys (raw : RedisRaw) (p : Option Nat) (e : Option String)
    (t c f : Bool) : ((updateStats raw p e t c f).1).failKeys = raw.failKeys := by
  simp [updateStats]

@[simp] theorem save_dialog_state_fst_stats (raw : RedisRaw) (st : DialogState) :
    ((save_dialog_state raw st).1).stats = raw.stats := by
  simp only [save_dialog_state]; split <;> rfl

@[simp] theorem save_dialog_state_fst_failGet (raw : RedisRaw) (st : DialogState) :
    ((save_dialog_state raw st).1).failGet = raw.failGet := by
  simp only [save_dialog_state]; split <;> rfl

@[simp] theorem save_dialog_state_fst_failSet (raw : RedisRaw) (st : DialogState) :
    ((save_dialog_state raw st).1).failSet = raw.failSet := by
  simp only [save_dialog_state]; split <;> rfl

@[simp] theorem save_dialog_state_fst_failKeys (raw : RedisRaw) (st : DialogState) :
    ((save_dialog_state raw st).1).failKeys = raw.failKeys := by
  simp only [save_dialog_state]; split <;> rfl

theorem get_stats_save_dialog_state (raw : RedisRaw) (st : DialogState) :
    get_stats (save_dialog_state raw st).1 = get_stats raw := by
  simp [get_stats]

/-- The agent-error wrap of `AgentClient.get_answer` is never the empty
string. -/
theorem agent_wrap_ne_empty (e : String) : ("Ошибка агента: " ++ e) ≠ "" := by
  intro h
  have hlen := congrArg String.length h
  rw [String.length_append] at hlen
  have h15 : ("Ошибка агента: " : String).length = 15 := rfl
  rw [h15] at hlen
  simp at hlen

/-- Core behaviour of `_process_message_direct` on a healthy store: the
incremented dialog record is persisted, and the trace starts with the
dialog save followed by the agent call — in every branch, whatever the
agent and send oracles do. -/
theorem processMessageDirect_spec (env : Env) (raw : RedisRaw)
    (messageId chatId userId text : String)
    (hget : raw.failGet = false) (hset : raw.failSet = false)
    (hkey : ∀ d, lookupDialog raw.dialogs chatId = some d → d.chat_id = chatId) :
    ∃ ds rest,
      (processMessageDirect env raw messageId chatId userId text).2 =
        Event.saveDialog ds :: Event.getAnswer chatId text :: rest ∧
      ds.chat_id = chatId ∧
      ds.last_message_id = some messageId ∧
      ds.last_activity = env.now ∧
      ds.message_count = (match lookupDialog raw.dialogs chatId with
        | some d => d.message_count
        | none => 0) + 1 ∧
      lookupDialog ((processMessageDirect env raw messageId chatId userId text).1).dialogs
        chatId = some ds := by
  have hgd : get_dialog_state raw chatId = lookupDialog raw.dialogs chatId := by
    simp [get_dialog_state, hget]
  have hsave : ∀ st : DialogState, ((save_dialog_state raw st).1).dialogs =
      setDialog raw.dialogs st.chat_id st := by
    intro st; simp [save_dialog_state, hset]
  rcases hl : lookupDialog raw.dialogs chatId with _ | d <;>
    rcases ha : get_answer (env.agentStream text) with e | ans
  · simp only [processMessageDirect, hgd, hl, ha, updateStats_fst_dialogs, hsave,
      lookup_setDialog_self]
    exact ⟨_, _, rfl, rfl, rfl, rfl, rfl, rfl⟩
  · rcases hs : env.sendOk chatId ans with e | u <;>
      simp only [processMessageDirect, hgd, hl, ha, hs, updateStats_fst_dialogs, hsave,
        lookup_setDialog_self] <;>
      exact ⟨_, _, rfl, rfl, rfl, rfl, rfl, rfl⟩
  · have hc := hkey d hl
    simp only [processMessageDirect, hgd, hl, ha, updateStats_fst_dialogs, hsave, hc,
      lookup_setDialog_self]
    exact ⟨_, _, rfl, rfl, rfl, rfl, rfl, rfl⟩
  · have hc := hkey d hl
    rcases hs : env.sendOk chatId ans with e | u <;>
      simp only [processMessageDirect, hgd, hl, ha, hs, updateStats_fst_dialogs, hsave, hc,
        lookup_setDialog_self] <;>
      exact ⟨_, _, rfl, rfl, rfl, rfl, rfl, rfl⟩

/-- `_process_message_direct` never changes the store failure flags. -/
theorem processMessageDirect_fst_flags (env : Env) (raw : RedisRaw) (i c u t : String) :
    ((processMessageDirect env raw i c u t).1).failGet = raw.failGet ∧
    ((processMessageDirect env raw i c u t).1).failSet = raw.failSet ∧
    ((processMessageDirect env raw i c u t).1).failKeys = raw.failKeys := by
  simp only [processMessageDirect]
  rcases ha : get_answer (env.agentStream t) with e | ans
  · simp [ha]
  · rcases hs : env.sendOk c ans with e | u2 <;> simp [ha, hs]

/-! # Claim C7 -/

/-- C7 counterexample: `get_answer` does not return the plain concatenation
of the streamed fragments — the code strips leading and trailing
whitespace. On the single non-empty fragment `" a "` the concatenation
is `" a "` but `get_answer` returns `"a"`. -/
theorem get_answer_ne_plain_concat :
    get_answer (Except.ok [" a "]) ≠ Except.ok (String.join [" a "]) := by
  have h1 : get_answer (Except.ok [" a "]) = Except.ok "a" := rfl
  have h2 : String.join [" a "] = " a " := rfl
  rw [h1, h2]
  intro h
  exact absurd (Except.ok.inj h) (by decide)

/-- C7 (amended): `get_answer` returns the whitespace-stripped
concatenation of the fragments in arrival order; whenever the stripped
concatenation is empty — in particular for the empty fragment sequence —
it returns the fixed fallback apology; the result is never the empty
string; a raising stream surfaces as the wrapped agent error. -/
theorem get_answer_spec :
    (∀ chunks : List String,
       get_answer (Except.ok chunks) =
         Except.ok (if pyStrip (String.join chunks) = "" then fallbackAnswer
                    else pyStrip (String.join chunks))) ∧
    get_answer (Except.ok ([] : List String)) = Except.ok fallbackAnswer ∧
    (∀ chunks : List String, ∃ s, get_answer (Except.ok chunks) = Except.ok s ∧ s ≠ "") ∧
    (∀ e : String, get_answer (Except.error e) = Except.error ("Ошибка агента: " ++ e)) := by
  refine ⟨?_, ?_, ?_, ?_⟩
  · intro chunks
    simp only [get_answer]
    split <;> rfl
  · rfl
  · intro chunks
    by_cases h : pyStrip (String.join chunks) = ""
    · exact ⟨fallbackAnswer, by simp [get_answer, h], by decide⟩
    · exact ⟨pyStrip (String.join chunks), by simp [get_answer, h], h⟩
  · intro e
    rfl

/-! # Claim C4 -/

/-- C4: once the token phase has produced a bearer token, a 401 on the
first request triggers exactly one re-authentication and exactly one
retried request, whose status is surfaced as-is (any status `≥ 400`,
including a second 401, surfaces as an error with no third attempt); a
failed re-authentication surfaces with no retried request; and a first
request that does not return 401 triggers no re-authentication and no
second request. -/
theorem retry_after_401_exactly_once (env : RetryEnv) (t : String)
    (htok : (match env.cachedToken with
             | some t0 => Except.ok t0
             | none => env.acquireFirst) = Except.ok t) :
    (env.status1 = 401 →
       (∀ t2, env.acquireAfter401 = Except.ok t2 →
          (requestWithRetry env).requestsSent = 2 ∧
          (requestWithRetry env).reauths = 1 ∧
          (requestWithRetry env).result = raiseForStatus env.status2 ∧
          (400 ≤ env.status2 → ∃ e2, (requestWithRetry env).result = Except.error e2)) ∧
       (∀ e2, env.acquireAfter401 = Except.error e2 →
          (requestWithRetry env).requestsSent = 1 ∧
          (requestWithRetry env).reauths = 1 ∧
          (requestWithRetry env).result = Except.error e2)) ∧
    (env.status1 ≠ 401 →
       (requestWithRetry env).reauths = 0 ∧
       (requestWithRetry env).requestsSent = 1 ∧
       (requestWithRetry env).result = raiseForStatus env.status1) := by
  constructor
  · intro h401
    constructor
    · intro t2 hacq
      simp only [requestWithRetry, htok, h401, if_pos rfl, hacq]
      refine ⟨rfl, rfl, rfl, ?_⟩
      intro h400
      exact ⟨"HTTPStatusError " ++ toString env.status2, by simp [raiseForStatus, h400]⟩
    · intro e2 hacq
      refine ⟨?_, ?_, ?_⟩ <;> simp [requestWithRetry, htok, h401, hacq]
  · intro hne
    refine ⟨?_, ?_, ?_⟩ <;> simp [requestWithRetry, htok, hne]

/-- C4 witness: cached token, first request 401, re-auth succeeds, retried
request 401 again — two requests, one re-auth, failure surfaced. -/
theorem retry_after_401_exactly_once_witness :
    (requestWithRetry retry401Twice).requestsSent = 2 ∧
    (requestWithRetry retry401Twice).reauths = 1 ∧
    ∃ e2, (requestWithRetry retry401Twice).result = Except.error e2 := by
  have h := retry_after_401_exactly_once retry401Twice "tok" rfl
  have h2 := (h.1 rfl).1 "tok2" rfl
  exact ⟨h2.1, h2.2.1, h2.2.2.2 (by decide)⟩

/-! # Claim C10 -/

/-- C10: for every processed message, the dialog state is looked up,
mutated (`message_count` incremented, `last_message_id` and
`last_activity` set) and persisted before the response generator is
called: the trace starts with the dialog save and only then the agent
call, whatever the agent and send oracles answer — so a later failure
leaves the incremented state persisted, and `message_count` counts
attempts. -/
theorem dialog_saved_before_generation (env : Env) (raw : RedisRaw)
    (messageId chatId userId text : String)
    (hget : raw.failGet = false) (hset : raw.failSet = false)
    (hkey : ∀ d, lookupDialog raw.dialogs chatId = some d → d.chat_id = chatId) :
    ∃ ds rest,
      (processMessageDirect env raw messageId chatId userId text).2 =
        Event.saveDialog ds :: Event.getAnswer chatId text :: rest ∧
      ds.last_message_id = some messageId ∧
      ds.last_activity = env.now ∧
      ds.message_count = (match get_dialog_state raw chatId with
        | some d => d.message_count
        | none => 0) + 1 ∧
      get_dialog_state (processMessageDirect env raw messageId chatId userId text).1 chatId
        = some ds := by
  obtain ⟨ds, rest, h1, _, h3, h4, h5, h6⟩ :=
    processMessageDirect_spec env raw messageId chatId userId text hget hset hkey
  have hflag := (processMessageDirect_fst_flags env raw messageId chatId userId text).1
  refine ⟨ds, rest, h1, h3, h4, ?_, ?_⟩
  · rw [h5]
    simp [get_dialog_state, hget]
  · rw [get_dialog_state, hflag, hget]
    simpa using h6

/-- C10 witness: processing message `m2` of chat `c1` on an empty healthy
store persists a dialog record with one attempt counted before any
agent interaction. -/
theorem dialog_saved_before_generation_witness :
    ∃ ds rest,
      (processMessageDirect envOneChat rawEmpty "m2" "c1" "u1" "Price?").2 =
        Event.saveDialog ds :: Event.getAnswer "c1" "Price?" :: rest ∧
      ds.last_message_id = some "m2" ∧
      ds.last_activity = envOneChat.now ∧
      ds.message_count = (match get_dialog_state rawEmpty "c1" with
        | some d => d.message_count
        | none => 0) + 1 ∧
      get_dialog_state (processMessageDirect envOneChat rawEmpty "m2" "c1" "u1" "Price?").1 "c1"
        = some ds :=
  dialog_saved_before_generation envOneChat rawEmpty "m2" "c1" "u1" "Price?" rfl rfl
    (by intro d h; simp [rawEmpty, lookupDialog] at h)

/-! # Claim C9 -/

/-- C9: every state-store failure is absorbed at the store-client boundary
— a failed or absent statistics read yields the zero record, a failed
dialog read yields `None`, a failed active-dialog count yields `0`,
failed writes return `False` with the store unchanged instead of
raising — and even with every store operation failing, a message whose
agent and send calls succeed still has its reply generated and sent. -/
theorem store_failures_absorbed (raw : RedisRaw) (c : String) (st : DialogState)
    (ws : WorkerStats) (env : Env) (i cid uid txt ans : String)
    (hga : get_answer (env.agentStream txt) = Except.ok ans)
    (hsend : env.sendOk cid ans = Except.ok ()) :
    (raw.failGet = true → get_stats raw = {}) ∧
    (raw.stats = none → get_stats raw = {}) ∧
    (raw.failGet = true → get_dialog_state raw c = none) ∧
    (raw.failKeys = true → get_active_dialogs_count raw = 0) ∧
    (raw.failSet = true → save_dialog_state raw st = (raw, false)) ∧
    (raw.failSet = true → save_stats raw ws = (raw, false)) ∧
    Event.getAnswer cid txt ∈ (processMessageDirect env raw i cid uid txt).2 ∧
    Event.sendMessage cid ans ∈ (processMessageDirect env raw i cid uid txt).2 := by
  refine ⟨?_, ?_, ?_, ?_, ?_, ?_, ?_, ?_⟩
  · intro h; simp [get_stats, h]
  · intro h; simp [get_stats, h]
  · intro h; simp [get_dialog_state, h]
  · intro h; simp [get_active_dialogs_count, h]
  · intro h; simp [save_dialog_state, h]
  · intro h; simp [save_stats, h]
  · simp only [processMessageDirect, hga, hsend]
    simp
  · simp only [processMessageDirect, hga, hsend]
    simp

/-- C9 witness: with every raw store operation failing, the reads fall back
to their defaults and the reply for `Price?` is still generated and
sent. -/
theorem store_failures_absorbed_witness :
    get_stats rawAllFail = {} ∧
    get_dialog_state rawAllFail "c1" = none ∧
    get_active_dialogs_count rawAllFail = 0 ∧
    save_dialog_state rawAllFail { chat_id := "c1", user_id := "u1" } = (rawAllFail, false) ∧
    Event.getAnswer "c1" "Price?" ∈
      (processMessageDirect envOneChat rawAllFail "m2" "c1" "u1" "Price?").2 ∧
    Event.sendMessage "c1" "Answer" ∈
      (processMessageDirect envOneChat rawAllFail "m2" "c1" "u1" "Price?").2 := by
  have h := store_failures_absorbed rawAllFail "c1" { chat_id := "c1", user_id := "u1" }
    {} envOneChat "m2" "c1" "u1" "Price?" "Answer" rfl rfl
  exact ⟨h.1 rfl, h.2.2.1 rfl, h.2.2.2.1 rfl, h.2.2.2.2.1 rfl, h.2.2.2.2.2.2.1,
    h.2.2.2.2.2.2.2⟩

/-! # Claim C5 -/

/-- Invariant of processing further turns when a dialog record already
exists: the count grows by the number of turns and the last message id
follows the last turn. -/
theorem processTurns_inv (env : Env) (chatId userId : String) :
    ∀ (turns : List (String × String)) (raw : RedisRaw) (d : DialogState),
      raw.failGet = false → raw.failSet = false →
      lookupDialog raw.dialogs chatId = some d → d.chat_id = chatId →
      ∃ ds, lookupDialog (processTurns env chatId userId turns raw).dialogs chatId = some ds ∧
        ds.chat_id = chatId ∧
        ds.message_count = d.message_count + turns.length ∧
        ds.last_message_id = (match turns.getLast? with
          | some t => some t.1
          | none => d.last_message_id) ∧
        (processTurns env chatId userId turns raw).failGet = false ∧
        (processTurns env chatId userId turns raw).failSet = false
  | [], raw, d, hget, hset, hl, hc => by
    exact ⟨d, hl, hc, by simp, by simp, hget, hset⟩
  | t :: rest, raw, d, hget, hset, hl, hc => by
    have hkey : ∀ d2, lookupDialog raw.dialogs chatId = some d2 → d2.chat_id = chatId := by
      intro d2 h2
      rw [hl] at h2
      cases h2
      exact hc
    obtain ⟨ds1, evs1, _, hds1c, hds1l, _, hds1n, hds1look⟩ :=
      processMessageDirect_spec env raw t.1 chatId userId t.2 hget hset hkey
    rw [hl] at hds1n
    have hflags := processMessageDirect_fst_flags env raw t.1 chatId userId t.2
    have hstep : processTurns env chatId userId (t :: rest) raw =
        processTurns env chatId userId rest
          (processMessageDirect env raw t.1 chatId userId t.2).1 := rfl
    obtain ⟨ds, i1, ic, icnt, ilast, i5, i6⟩ :=
      processTurns_inv env chatId userId rest
        (processMessageDirect env raw t.1 chatId userId t.2).1 ds1
        (by rw [hflags.1]; exact hget) (by rw [hflags.2.1]; exact hset) hds1look hds1c
    refine ⟨ds, by rw [hstep]; exact i1, ic, ?_, ?_, by rw [hstep]; exact i5,
      by rw [hstep]; exact i6⟩
    · rw [icnt, hds1n]
      simp only [List.length_cons]
      omega
    · rcases rest with _ | ⟨r, rs⟩
      · simpa [hds1l] using ilast
      · simpa using ilast

/-- C5: starting from no record for the conversation, processing K inbound
turns (in any split across cycles — the store evolution is the same
fold of `_process_message_direct`) leaves a persisted dialog record
with `message_count = K` and `last_message_id` the identifier of the
most recently processed message; the record is created on the first
turn with the pydantic default count 0 before the increment. -/
theorem message_count_counts_turns (env : Env) (chatId userId : String)
    (turns : List (String × String)) (raw : RedisRaw)
    (hget : raw.failGet = false) (hset : raw.failSet = false)
    (hnone : lookupDialog raw.dialogs chatId = none)
    (hne : turns ≠ []) :
    ∃ ds, get_dialog_state (processTurns env chatId userId turns raw) chatId = some ds ∧
      ds.message_count = turns.length ∧
      ds.last_message_id = (turns.getLast?).map (fun p => p.1) := by
  rcases turns with _ | ⟨t, rest⟩
  · exact absurd rfl hne
  · have hkey : ∀ d2, lookupDialog raw.dialogs chatId = some d2 → d2.chat_id = chatId := by
      intro d2 h2
      rw [hnone] at h2
      cases h2
    obtain ⟨ds1, evs1, _, hds1c, hds1l, _, hds1n, hds1look⟩ :=
      processMessageDirect_spec env raw t.1 chatId userId t.2 hget hset hkey
    rw [hnone] at hds1n
    simp only [Nat.zero_add] at hds1n
    have hflags := processMessageDirect_fst_flags env raw t.1 chatId userId t.2
    obtain ⟨ds, i1, ic, icnt, ilast, i5, i6⟩ :=
      processTurns_inv env chatId userId rest
        (processMessageDirect env raw t.1 chatId userId t.2).1 ds1
        (by rw [hflags.1]; exact hget) (by rw [hflags.2.1]; exact hset) hds1look hds1c
    have hstep : processTurns env chatId userId (t :: rest) raw =
        processTurns env chatId userId rest
          (processMessageDirect env raw t.1 chatId userId t.2).1 := rfl
    refine ⟨ds, ?_, ?_, ?_⟩
    · rw [hstep, get_dialog_state, i5]
      simpa using i1
    · rw [icnt, hds1n]
      simp only [List.length_cons]
      omega
    · rcases rest with _ | ⟨r, rs⟩
      · simpa [hds1l] using ilast
      · rcases hgl : (r :: rs).getLast? with _ | tl
        · rw [List.getLast?_eq_getLast (r :: rs) (by simp)] at hgl
          cases hgl
        · rw [ilast, hgl]
          simp [hgl]

/-- C5 witness: two turns `m1`/`m2` on an empty store leave
`message_count = 2` and `last_message_id = m2`. -/
theorem message_count_counts_turns_witness :
    ∃ ds, get_dialog_state
        (processTurns envOneChat "c1" "u1" [("m1", "Hi"), ("m2", "Price?")] rawEmpty)
        "c1" = some ds ∧
      ds.message_count = 2 ∧ ds.last_message_id = some "m2" := by
  obtain ⟨ds, h1, h2, h3⟩ := message_count_counts_turns envOneChat "c1" "u1"
    [("m1", "Hi"), ("m2", "Price?")] rawEmpty rfl rfl rfl (by simp)
  exact ⟨ds, h1, by simpa using h2, by rw [h3]; rfl⟩

/-! # Claim C8 -/

/-- C8: a conversation none of whose fetched messages qualifies (inbound,
unread, non-empty text) causes no dialog-state write, no reply, indeed
no effect at all in that cycle: its chat step returns the store
unchanged with an empty trace. -/
theorem no_effect_without_qualifying (env : Env) (raw : RedisRaw) (cd : ChatData)
    (ms : List MsgData)
    (hms : env.getMessages cd.id = Except.ok ms)
    (hq : ms.filter qualifies = []) :
    processChat env raw cd = Except.ok (raw, []) := by
  unfold processChat
  by_cases hid : cd.id = ""
  · rw [if_pos hid]
  · have hsel : selectedMessage ms = none := by
      unfold selectedMessage
      rw [hq]
    rw [if_neg hid]
    simp only [hms, hsel]

/-- C8 witness: a chat whose only fetched message is outbound is left
completely alone. -/
theorem no_effect_without_qualifying_witness :
    processChat envOnlyOutgoing rawEmpty { id := "c3" } = Except.ok (rawEmpty, []) :=
  no_effect_without_qualifying envOnlyOutgoing rawEmpty { id := "c3" } [msgOut] rfl rfl

/-! # Claim C6 -/

/-- On a healthy store, the stats record `_update_stats` persists is what a
subsequent read returns. -/
theorem get_stats_updateStats (raw : RedisRaw) (p : Option Nat) (eo : Option String)
    (t c f : Bool) (hget : raw.failGet = false) (hset : raw.failSet = false) :
    get_stats (updateStats raw p eo t c f).1 = (updateStats raw p eo t c f).2 := by
  simp [updateStats, save_stats, hset, get_stats, hget]

/-- Stats effect of `_process_message_direct` when the agent call raises
with message `e`: total and failed step by one, completed is untouched,
and `e` is recorded as the last error unless it is the empty string. -/
theorem pmd_agent_error_stats (env : Env) (raw : RedisRaw) (i cid uid txt e : String)
    (hget : raw.failGet = false) (hset : raw.failSet = false)
    (ha : get_answer (env.agentStream txt) = Except.error e) :
    (get_stats (processMessageDirect env raw i cid uid txt).1).total_messages
        = (get_stats raw).total_messages + 1 ∧
    (get_stats (processMessageDirect env raw i cid uid txt).1).completed_messages
        = (get_stats raw).completed_messages ∧
    (get_stats (processMessageDirect env raw i cid uid txt).1).failed_messages
        = (get_stats raw).failed_messages + 1 ∧
    (get_stats (processMessageDirect env raw i cid uid txt).1).last_error
        = (if e = "" then (get_stats raw).last_error else some e) := by
  simp only [processMessageDirect, ha]
  rw [get_stats_updateStats _ _ _ _ _ _ (by simp [hget]) (by simp [hset])]
  refine ⟨?_, ?_, ?_, ?_⟩ <;>
    · simp only [updateStats, get_stats_save_dialog_state]
      split <;> rfl

/-- C6: when the response-generator call raises for the selected message,
the chat step completes normally (the per-message handler absorbs the
exception and the loop proceeds to the remaining conversations), and
the persisted statistics show failed and total one greater, completed
unchanged, and the wrapped agent error recorded as last error. -/
theorem agent_failure_counted (env : Env) (raw : RedisRaw) (cd : ChatData)
    (rest : List ChatData) (ms : List MsgData) (m : MsgData) (e : String)
    (hid : cd.id ≠ "") (hms : env.getMessages cd.id = Except.ok ms)
    (hsel : selectedMessage ms = some m)
    (hstream : env.agentStream m.text = Except.error e)
    (hget : raw.failGet = false) (hset : raw.failSet = false) :
    ∃ raw1 evs1,
      processChat env raw cd = Except.ok (raw1, evs1) ∧
      runChats env (cd :: rest) raw =
        ((runChats env rest raw1).1, evs1 ++ (runChats env rest raw1).2.1,
          (runChats env rest raw1).2.2) ∧
      (get_stats raw1).failed_messages = (get_stats raw).failed_messages + 1 ∧
      (get_stats raw1).completed_messages = (get_stats raw).completed_messages ∧
      (get_stats raw1).total_messages = (get_stats raw).total_messages + 1 ∧
      (get_stats raw1).last_error = some ("Ошибка агента: " ++ e) := by
  have ha : get_answer (env.agentStream m.text) = Except.error ("Ошибка агента: " ++ e) := by
    rw [hstream]
    rfl
  have hpc : processChat env raw cd =
      Except.ok ((processMessageDirect env raw m.id cd.id m.author_id m.text).1,
        Event.markRead cd.id ::
          (processMessageDirect env raw m.id cd.id m.author_id m.text).2) := by
    unfold processChat
    rw [if_neg hid]
    simp only [hms, hsel]
  obtain ⟨h1, h2, h3, h4⟩ :=
    pmd_agent_error_stats env raw m.id cd.id m.author_id m.text _ hget hset ha
  rw [if_neg (agent_wrap_ne_empty e)] at h4
  refine ⟨_, _, hpc, ?_, h3, h2, h1, h4⟩
  simp only [runChats, hpc]

/-- C6 witness: one chat whose agent stream raises — counted as one failed,
one total, zero completed, error recorded, loop proceeds. -/
theorem agent_failure_counted_witness :
    ∃ raw1 evs1,
      processChat envAgentBoom rawEmpty { id := "c1" } = Except.ok (raw1, evs1) ∧
      runChats envAgentBoom [{ id := "c1" }] rawEmpty =
        ((runChats envAgentBoom [] raw1).1, evs1 ++ (runChats envAgentBoom [] raw1).2.1,
          (runChats envAgentBoom [] raw1).2.2) ∧
      (get_stats raw1).failed_messages = (get_stats rawEmpty).failed_messages + 1 ∧
      (get_stats raw1).completed_messages = (get_stats rawEmpty).completed_messages ∧
      (get_stats raw1).total_messages = (get_stats rawEmpty).total_messages + 1 ∧
      (get_stats raw1).last_error = some ("Ошибка агента: " ++ "stream down") := by
  have hsel : selectedMessage [msgPrice] = some msgPrice := by
    have h0 : selectedMessage [msgPrice] =
        (([msgPrice].filter qualifies).mergeSort createdLE).getLast? := rfl
    rw [h0]
    rw [show [msgPrice].filter qualifies = [msgPrice] from rfl]
    rw [List.mergeSort_singleton]
    rfl
  exact agent_failure_counted envAgentBoom rawEmpty { id := "c1" } [] [msgPrice] msgPrice
    "stream down" (by decide) rfl hsel rfl rfl rfl

/-! # Claim C3 -/

/-- A chat whose message fetch does not raise can never abort the loop:
its chat step always returns normally. -/
theorem processChat_ok (env : Env) (raw : RedisRaw) (c2 : ChatData)
    (h : c2.id = "" ∨ ∃ ms, env.getMessages c2.id = Except.ok ms) :
    ∃ pr, processChat env raw c2 = Except.ok pr := by
  unfold processChat
  by_cases hid : c2.id = ""
  · rw [if_pos hid]
    exact ⟨_, rfl⟩
  · rcases h with h | ⟨ms, h⟩
    · exact absurd h hid
    · rw [if_neg hid]
      rcases hsel : selectedMessage ms with _ | m <;> simp only [h, hsel] <;> exact ⟨_, rfl⟩

/-- When no chat's message fetch raises, the chat loop visits every chat
and finishes without an escaped exception. -/
theorem runChats_no_abort (env : Env) :
    ∀ (chats : List ChatData) (raw0 : RedisRaw),
      (∀ c2 ∈ chats, c2.id = "" ∨ ∃ ms, env.getMessages c2.id = Except.ok ms) →
      (runChats env chats raw0).2.2 = none
  | [], _, _ => rfl
  | c2 :: rest, raw0, h => by
    obtain ⟨pr, hpr⟩ := processChat_ok env raw0 c2 (h c2 (by simp))
    obtain ⟨raw1, evs1⟩ := pr
    simp only [runChats, hpr]
    exact runChats_no_abort env rest raw1 (fun c3 h3 => h c3 (by simp [h3]))

/-- C3 counterexample: in a cycle with two unread chats where fetching the
first chat's messages raises `boom`, the second chat — which has a
qualifying message and working collaborators — gets no reply, and the
failed-message statistic stays 0 (the error is only recorded as the
cycle's last error). This refutes conversation-granularity containment
for message-fetch exceptions. -/
theorem chat_fetch_error_aborts_cycle :
    ((pollCycle envFetchBoom rawEmpty).2).filter (isSendFor "c2") = [] ∧
    (get_stats (pollCycle envFetchBoom rawEmpty).1).failed_messages = 0 ∧
    (get_stats (pollCycle envFetchBoom rawEmpty).1).last_error = some "boom" := by
  refine ⟨?_, ?_, ?_⟩ <;> rfl

/-- C3 (amended): an exception inside per-message processing (dialog-state
update, answer generation, reply send) is contained — the chat loop
never aborts when every message fetch succeeds; but an exception
raised while fetching a conversation's messages propagates to the
cycle-level handler: the remaining chats of that cycle are not visited,
the store is left as it was, and the handler records the error text as
the cycle's last error without incrementing the failure statistic. -/
theorem exception_granularity (env : Env) (raw : RedisRaw) (cd : ChatData)
    (rest : List ChatData) (e : String)
    (hunread : env.getUnreadChats = Except.ok (cd :: rest))
    (hid : cd.id ≠ "") (hfetch : env.getMessages cd.id = Except.error e)
    (hene : e ≠ "") :
    (∀ (chats : List ChatData) (raw0 : RedisRaw),
       (∀ c2 ∈ chats, c2.id = "" ∨ ∃ ms, env.getMessages c2.id = Except.ok ms) →
       (runChats env chats raw0).2.2 = none) ∧
    runChats env (cd :: rest) raw = (raw, [], some e) ∧
    ∃ st, (pollCycle env raw).2 = [Event.saveStats st] ∧
      st.failed_messages = (get_stats raw).failed_messages ∧
      st.completed_messages = (get_stats raw).completed_messages ∧
      st.total_messages = (get_stats raw).total_messages ∧
      st.last_error = some e := by
  have habort : processChat env raw cd = Except.error e := by
    unfold processChat
    rw [if_neg hid]
    simp only [hfetch]
  have hrun : runChats env (cd :: rest) raw = (raw, [], some e) := by
    simp only [runChats, habort]
  refine ⟨runChats_no_abort env, hrun, ?_⟩
  refine ⟨(updateStats raw none (some e) false false false).2, ?_, ?_, ?_, ?_, ?_⟩
  · simp [pollCycle, hunread, hrun]
  · simp [updateStats, hene]
  · simp [updateStats, hene]
  · simp [updateStats, hene]
  · simp [updateStats, hene]

/-- C3 witness for the amended claim, at the concrete two-chat cycle. -/
theorem exception_granularity_witness :
    runChats envFetchBoom ({ id := "c1" } :: [{ id := "c2" }]) rawEmpty =
      (rawEmpty, [], some "boom") ∧
    ∃ st, (pollCycle envFetchBoom rawEmpty).2 = [Event.saveStats st] ∧
      st.failed_messages = (get_stats rawEmpty).failed_messages ∧
      st.completed_messages = (get_stats rawEmpty).completed_messages ∧
      st.total_messages = (get_stats rawEmpty).total_messages ∧
      st.last_error = some "boom" := by
  have h := exception_granularity envFetchBoom rawEmpty { id := "c1" } [{ id := "c2" }]
    "boom" rfl (by decide) rfl (by decide)
  exact ⟨h.2.1, h.2.2⟩

/-! # Claim C2 -/

/-- Once the acknowledgement has been seen, the rest of any trace is
acceptable. -/
theorem ackedFrom_of_seen (c : String) : ∀ evs : List Event, ackedFrom c true evs = true
  | [] => rfl
  | Event.markRead c2 :: rest => by
    simp only [ackedFrom, Bool.true_or]
    exact ackedFrom_of_seen c rest
  | Event.getAnswer c2 t :: rest => by
    simp only [ackedFrom, Bool.true_or, Bool.true_and]
    exact ackedFrom_of_seen c rest
  | Event.sendMessage c2 t :: rest => by
    simp only [ackedFrom, Bool.true_or, Bool.true_and]
    exact ackedFrom_of_seen c rest
  | Event.saveDialog d :: rest => ackedFrom_of_seen c rest
  | Event.saveStats s :: rest => ackedFrom_of_seen c rest

/-- Splitting `ackedFrom` across an append: the second part starts with
`seen` updated by whether the first part acknowledged `c`. -/
theorem ackedFrom_append (c : String) : ∀ (l1 l2 : List Event) (seen : Bool),
    ackedFrom c seen (l1 ++ l2) =
      (ackedFrom c seen l1 && ackedFrom c (seen || hasMarkRead c l1) l2)
  | [], l2, seen => by
    show ackedFrom c seen l2 = (true && ackedFrom c (seen || false) l2)
    simp
  | Event.markRead c2 :: rest, l2, seen => by
    show ackedFrom c (seen || decide (c2 = c)) (rest ++ l2) =
      (ackedFrom c (seen || decide (c2 = c)) rest &&
        ackedFrom c (seen || (decide (c2 = c) || hasMarkRead c rest)) l2)
    rw [ackedFrom_append c rest l2 (seen || decide (c2 = c)), Bool.or_assoc]
  | Event.getAnswer c2 t :: rest, l2, seen => by
    show ((seen || !decide (c2 = c)) && ackedFrom c seen (rest ++ l2)) =
      (((seen || !decide (c2 = c)) && ackedFrom c seen rest) &&
        ackedFrom c (seen || hasMarkRead c rest) l2)
    rw [ackedFrom_append c rest l2 seen, Bool.and_assoc]
  | Event.sendMessage c2 t :: rest, l2, seen => by
    show ((seen || !decide (c2 = c)) && ackedFrom c seen (rest ++ l2)) =
      (((seen || !decide (c2 = c)) && ackedFrom c seen rest) &&
        ackedFrom c (seen || hasMarkRead c rest) l2)
    rw [ackedFrom_append c rest l2 seen, Bool.and_assoc]
  | Event.saveDialog d :: rest, l2, seen => by
    show ackedFrom c seen (rest ++ l2) =
      (ackedFrom c seen rest && ackedFrom c (seen || hasMarkRead c rest) l2)
    exact ackedFrom_append c rest l2 seen
  | Event.saveStats s :: rest, l2, seen => by
    show ackedFrom c seen (rest ++ l2) =
      (ackedFrom c seen rest && ackedFrom c (seen || hasMarkRead c rest) l2)
    exact ackedFrom_append c rest l2 seen

/-- All reply events of `_process_message_direct` name its own chat, so for
any observer chat the trace is acceptable as soon as `seen` or the
chats differ. -/
theorem ackedFrom_pmd (env : Env) (raw : RedisRaw) (i cid uid txt : String)
    (c : String) (seen : Bool) (h : (seen || !(cid = c : Bool)) = true) :
    ackedFrom c seen ((processMessageDirect env raw i cid uid txt).2) = true := by
  simp only [processMessageDirect]
  rcases ha : get_answer (env.agentStream txt) with e | ans
  · simp [ha, ackedFrom, h]
  · rcases hs : env.sendOk cid ans with e | u <;> simp [ha, hs, ackedFrom, h]

/-- Every successful chat step yields an acceptable trace for every
observer chat and every starting `seen`: its reply events are preceded
by its own leading mark-read. -/
theorem ackedFrom_processChat (env : Env) (raw : RedisRaw) (cd : ChatData)
    (c : String) (seen : Bool) :
    ∀ pr, processChat env raw cd = Except.ok pr → ackedFrom c seen pr.2 = true := by
  intro pr h
  unfold processChat at h
  by_cases hid : cd.id = ""
  · rw [if_pos hid] at h
    injection h with h2
    rw [← h2]
    rfl
  · rw [if_neg hid] at h
    rcases hm : env.getMessages cd.id with e | ms
    · simp only [hm] at h
      cases h
    · simp only [hm] at h
      rcases hsel : selectedMessage ms with _ | m <;> simp only [hsel] at h
      · injection h with h2
        rw [← h2]
        rfl
      · injection h with h2
        rw [← h2]
        simp only [ackedFrom]
        by_cases hc : cd.id = c
        · have hseen : (seen || (cd.id = c : Bool)) = true := by simp [hc]
          rw [hseen]
          exact ackedFrom_of_seen c _
        · refine ackedFrom_pmd env raw m.id cd.id m.author_id m.text c _ ?_
          simp [hc]

/-- The whole chat loop yields an acceptable trace for every observer chat
and every starting `seen`. -/
theorem ackedFrom_runChats (env : Env) (c : String) :
    ∀ (chats : List ChatData) (raw : RedisRaw) (seen : Bool),
      ackedFrom c seen ((runChats env chats raw).2.1) = true
  | [], _, _ => rfl
  | c2 :: rest, raw, seen => by
    rcases hpc : processChat env raw c2 with e | pr
    · simp [runChats, hpc, ackedFrom]
    · obtain ⟨raw1, evs1⟩ := pr
      simp only [runChats, hpc]
      rw [ackedFrom_append]
      rw [ackedFrom_processChat env raw c2 c seen (raw1, evs1) hpc]
      rw [ackedFrom_runChats env c rest raw1 (seen || hasMarkRead c evs1)]
      rfl

/-- C2: the worker acknowledges (marks read) the conversation of a
selected message first — the chat step's trace starts with the
mark-read event — and consequently, in every full poll cycle, every
answer-generation and reply-send event for any conversation is
preceded by that conversation's mark-read acknowledgement. -/
theorem mark_read_before_reply (env : Env) (raw : RedisRaw) (cd : ChatData)
    (ms : List MsgData) (m : MsgData) (c : String)
    (hid : cd.id ≠ "") (hms : env.getMessages cd.id = Except.ok ms)
    (hsel : selectedMessage ms = some m) :
    (∃ raw1 evs, processChat env raw cd = Except.ok (raw1, Event.markRead cd.id :: evs)) ∧
    ackedFrom c false ((pollCycle env raw).2) = true := by
  constructor
  · refine ⟨(processMessageDirect env raw m.id cd.id m.author_id m.text).1,
      (processMessageDirect env raw m.id cd.id m.author_id m.text).2, ?_⟩
    unfold processChat
    rw [if_neg hid]
    simp only [hms, hsel]
  · rcases hu : env.getUnreadChats with e | chats
    · simp [pollCycle, hu, ackedFrom]
    · rcases hrc : runChats env chats raw with ⟨raw1, evs, ab⟩
      have hevs : ackedFrom c false evs = true := by
        have h0 := ackedFrom_runChats env c chats raw false
        rw [hrc] at h0
        exact h0
      rcases ab with _ | e <;>
        · simp only [pollCycle, hu, hrc]
          rw [ackedFrom_append, hevs]
          simp [ackedFrom]

/-- C2 witness: in the one-chat cycle the chat step's trace opens with the
mark-read event, and the full cycle trace is acknowledge-first for
chat `c1`. -/
theorem mark_read_before_reply_witness :
    (∃ raw1 evs, processChat envOneChat rawEmpty { id := "c1" } =
      Except.ok (raw1, Event.markRead "c1" :: evs)) ∧
    ackedFrom "c1" false ((pollCycle envOneChat rawEmpty).2) = true := by
  have hsel : selectedMessage [msgHi, msgPrice] = some msgPrice := by
    have h0 : selectedMessage [msgHi, msgPrice] =
        (([msgHi, msgPrice].filter qualifies).mergeSort createdLE).getLast? := rfl
    have hsor : List.Pairwise (fun a b => createdLE a b = true) [msgHi, msgPrice] := by
      simp [List.pairwise_cons, createdLE, msgHi, msgPrice]
    rw [h0, show [msgHi, msgPrice].filter qualifies = [msgHi, msgPrice] from rfl,
      List.mergeSort_of_sorted hsor]
    rfl
  exact mark_read_before_reply envOneChat rawEmpty { id := "c1" } [msgHi, msgPrice]
    msgPrice "c1" (by decide) rfl hsel

/-! # Claim C1 -/

/-- In a `Pairwise`-sorted list the last element is a maximum. -/
theorem getLast_max_of_pairwise {α : Type} {le : α → α → Bool} :
    ∀ (l : List α), l.Pairwise (fun a b => le a b = true) →
      ∀ y, l.getLast? = some y → ∀ x ∈ l, x = y ∨ le x y = true
  | [], _, y, hy, x, hx => by cases hy
  | [a], _, y, hy, x, hx => by
    simp only [List.getLast?_singleton, Option.some.injEq] at hy
    simp only [List.mem_singleton] at hx
    subst hy
    subst hx
    exact Or.inl rfl
  | a :: b :: t, hp, y, hy, x, hx => by
    rw [List.getLast?_cons_cons] at hy
    rcases List.mem_cons.mp hx with rfl | hx2
    · have hyb : y ∈ b :: t := List.mem_of_getLast?_eq_some hy
      exact Or.inr ((List.pairwise_cons.mp hp).1 y hyb)
    · exact getLast_max_of_pairwise (b :: t) (List.pairwise_cons.mp hp).2 y hy x hx2

/-- The message the worker selects qualifies, comes from the fetched batch,
and carries the maximum creation timestamp among qualifying messages. -/
theorem selectedMessage_spec (msgs : List MsgData) (m : MsgData)
    (h : selectedMessage msgs = some m) :
    qualifies m = true ∧ m ∈ msgs ∧
    ∀ m2 ∈ msgs, qualifies m2 = true → m2.created ≤ m.created := by
  unfold selectedMessage at h
  rcases hq : msgs.filter qualifies with _ | ⟨q0, qrest⟩ <;> rw [hq] at h
  · cases h
  · have hmemm : m ∈ (q0 :: qrest).mergeSort createdLE :=
      List.mem_of_getLast?_eq_some h
    have hmemq : m ∈ q0 :: qrest := List.mem_mergeSort.mp hmemm
    have hmf : m ∈ msgs.filter qualifies := by rw [hq]; exact hmemq
    have hqual : qualifies m = true := (List.mem_filter.mp hmf).2
    have hmem2 : m ∈ msgs := (List.mem_filter.mp hmf).1
    refine ⟨hqual, hmem2, ?_⟩
    intro m2 hm2 hq2
    have hm2f : m2 ∈ msgs.filter qualifies := List.mem_filter.mpr ⟨hm2, hq2⟩
    rw [hq] at hm2f
    have hm2s : m2 ∈ (q0 :: qrest).mergeSort createdLE := List.mem_mergeSort.mpr hm2f
    have htrans : ∀ a b c : MsgData, createdLE a b → createdLE b c → createdLE a c := by
      intro a b c hab hbc
      simp only [createdLE, decide_eq_true_eq] at *
      omega
    have htotal : ∀ a b : MsgData, createdLE a b || createdLE b a := by
      intro a b
      simp only [createdLE]
      rcases Int.le_total a.created b.created with hle | hle <;> simp [hle]
    have hsorted := @List.sorted_mergeSort MsgData createdLE htrans htotal (q0 :: qrest)
    rcases getLast_max_of_pairwise _ hsorted m h m2 hm2s with rfl | hle
    · exact Int.le_refl _
    · simpa [createdLE, decide_eq_true_eq] using hle

/-- Reply events emitted while processing a message of chat `cid` never
name another chat. -/
theorem sends_pmd_ne (env : Env) (raw : RedisRaw) (i cid uid txt p : String)
    (hne : cid ≠ p) :
    ((processMessageDirect env raw i cid uid txt).2).filter (isSendFor p) = [] := by
  simp only [processMessageDirect]
  rcases ha : get_answer (env.agentStream txt) with e | ans
  · simp [ha, isSendFor]
  · rcases hs : env.sendOk cid ans with e | u <;> simp [ha, hs, isSendFor, hne]

/-- When the agent answers and the send succeeds, processing a message of
chat `cid` emits exactly one reply into `cid`, carrying the answer. -/
theorem sends_pmd_ok (env : Env) (raw : RedisRaw) (i cid uid txt ans : String)
    (ha : get_answer (env.agentStream txt) = Except.ok ans)
    (hs : env.sendOk cid ans = Except.ok ()) :
    ((processMessageDirect env raw i cid uid txt).2).filter (isSendFor cid) =
      [Event.sendMessage cid ans] := by
  simp only [processMessageDirect, ha, hs]
  simp [isSendFor]

/-- A chat step of a different chat contributes no reply for `p`. -/
theorem sends_processChat_ne (env : Env) (raw : RedisRaw) (cd : ChatData) (p : String)
    (hne : cd.id ≠ p) :
    ∀ pr, processChat env raw cd = Except.ok pr →
      pr.2.filter (isSendFor p) = [] := by
  intro pr h
  unfold processChat at h
  by_cases hid : cd.id = ""
  · rw [if_pos hid] at h
    injection h with h2
    rw [← h2]
    rfl
  · rw [if_neg hid] at h
    rcases hm : env.getMessages cd.id with e | ms
    · simp only [hm] at h
      cases h
    · simp only [hm] at h
      rcases hsel : selectedMessage ms with _ | m <;> simp only [hsel] at h
      · injection h with h2
        rw [← h2]
        rfl
      · injection h with h2
        rw [← h2]
        simp only [List.filter_cons]
        rw [show isSendFor p (Event.markRead cd.id) = false from rfl]
        simp only [Bool.false_eq_true, if_false]
        exact sends_pmd_ne env raw m.id cd.id m.author_id m.text p hne

/-- A loop over chats none of which is `p` contributes no reply for `p`. -/
theorem runChats_sends_none (env : Env) (p : String) :
    ∀ (chats : List ChatData) (raw : RedisRaw),
      (∀ c2 ∈ chats, c2.id ≠ p) →
      ((runChats env chats raw).2.1).filter (isSendFor p) = []
  | [], _, _ => rfl
  | c2 :: rest, raw, h => by
    rcases hpc : processChat env raw c2 with e | pr
    · simp [runChats, hpc]
    · obtain ⟨raw1, evs1⟩ := pr
      simp only [runChats, hpc]
      rw [List.filter_append]
      rw [sends_processChat_ne env raw c2 p (h c2 (by simp)) (raw1, evs1) hpc]
      rw [runChats_sends_none env p rest raw1 (fun c3 h3 => h c3 (by simp [h3]))]
      rfl

/-- Through the whole chat loop, a chat with a selected message and
healthy collaborators receives exactly its one reply, provided chat
ids are distinct and no fetch aborts the loop. -/
theorem runChats_sends_target (env : Env) (cd : ChatData) (ms : List MsgData)
    (m : MsgData) (ans : String) :
    ∀ (chats : List ChatData) (raw : RedisRaw),
      cd ∈ chats →
      (chats.map ChatData.id).Nodup →
      cd.id ≠ "" →
      (∀ c2 ∈ chats, c2.id = "" ∨ ∃ ms2, env.getMessages c2.id = Except.ok ms2) →
      env.getMessages cd.id = Except.ok ms →
      selectedMessage ms = some m →
      get_answer (env.agentStream m.text) = Except.ok ans →
      env.sendOk cd.id ans = Except.ok () →
      ((runChats env chats raw).2.1).filter (isSendFor cd.id) = [Event.sendMessage cd.id ans]
  | [], raw, hmem, _, _, _, _, _, _, _ => absurd hmem (List.not_mem_nil cd)
  | c2 :: rest, raw, hmem, hnodup, hid, hfetch, hms, hsel, ha, hs => by
    rcases List.mem_cons.mp hmem with rfl | hmem2
    · have hpc : processChat env raw cd =
          Except.ok ((processMessageDirect env raw m.id cd.id m.author_id m.text).1,
            Event.markRead cd.id ::
              (processMessageDirect env raw m.id cd.id m.author_id m.text).2) := by
        unfold processChat
        rw [if_neg hid]
        simp only [hms, hsel]
      simp only [runChats, hpc]
      rw [List.filter_append]
      have hps : (∀ x ∈ rest, ¬x.id = cd.id) ∧ (rest.map ChatData.id).Nodup := by
        simpa using hnodup
      rw [runChats_sends_none env cd.id rest _ (fun c3 h3 => hps.1 c3 h3)]
      simp only [List.filter_cons]
      rw [show isSendFor cd.id (Event.markRead cd.id) = false from rfl]
      simp only [Bool.false_eq_true, if_false]
      rw [sends_pmd_ok env raw m.id cd.id m.author_id m.text ans ha hs]
      rfl
    · obtain ⟨pr, hpc⟩ := processChat_ok env raw c2 (hfetch c2 (by simp))
      obtain ⟨raw1, evs1⟩ := pr
      have hps : (∀ x ∈ rest, ¬x.id = c2.id) ∧ (rest.map ChatData.id).Nodup := by
        simpa using hnodup
      have hne : c2.id ≠ cd.id := fun heq => hps.1 cd hmem2 heq.symm
      simp only [runChats, hpc]
      rw [List.filter_append]
      rw [sends_processChat_ne env raw c2 cd.id hne (raw1, evs1) hpc]
      rw [runChats_sends_target env cd ms m ans rest raw1 hmem2 hps.2 hid
        (fun c3 h3 => hfetch c3 (by simp [h3])) hms hsel ha hs]
      rfl

/-- C1: in a poll cycle whose chat listing succeeds with distinct chat
ids and whose message fetches all succeed, a conversation with at
least one qualifying fetched message — whose selected message the
agent answers and whose send succeeds — receives exactly one reply in
the whole cycle; the replied-to message qualifies, belongs to the
fetched batch, and has the maximum creation timestamp among its
qualifying messages, so all older qualifying messages are skipped. -/
theorem one_reply_newest_message (env : Env) (raw : RedisRaw) (chats : List ChatData)
    (cd : ChatData) (ms : List MsgData) (m : MsgData) (ans : String)
    (hunread : env.getUnreadChats = Except.ok chats)
    (hmem : cd ∈ chats)
    (hnodup : (chats.map ChatData.id).Nodup)
    (hid : cd.id ≠ "")
    (hfetch : ∀ c2 ∈ chats, c2.id = "" ∨ ∃ ms2, env.getMessages c2.id = Except.ok ms2)
    (hms : env.getMessages cd.id = Except.ok ms)
    (hsel : selectedMessage ms = some m)
    (ha : get_answer (env.agentStream m.text) = Except.ok ans)
    (hs : env.sendOk cd.id ans = Except.ok ()) :
    qualifies m = true ∧ m ∈ ms ∧
    (∀ m2 ∈ ms, qualifies m2 = true → m2.created ≤ m.created) ∧
    ((pollCycle env raw).2).filter (isSendFor cd.id) = [Event.sendMessage cd.id ans] := by
  obtain ⟨h1, h2, h3⟩ := selectedMessage_spec ms m hsel
  refine ⟨h1, h2, h3, ?_⟩
  have hloop := runChats_sends_target env cd ms m ans chats raw hmem hnodup hid hfetch
    hms hsel ha hs
  rcases hrc : runChats env chats raw with ⟨raw1, evs, ab⟩
  rw [hrc] at hloop
  rcases ab with _ | e <;>
    · simp only [pollCycle, hunread, hrc]
      rw [List.filter_append, hloop]
      rfl

/-- C1 witness: chat `c1` holds unread "Hi" (t=1) and "Price?" (t=2); the
cycle sends exactly one reply, for "Price?". -/
theorem one_reply_newest_message_witness :
    qualifies msgPrice = true ∧ msgPrice ∈ [msgHi, msgPrice] ∧
    (∀ m2 ∈ [msgHi, msgPrice], qualifies m2 = true → m2.created ≤ msgPrice.created) ∧
    ((pollCycle envOneChat rawEmpty).2).filter (isSendFor "c1") =
      [Event.sendMessage "c1" "Answer"] := by
  have hsel : selectedMessage [msgHi, msgPrice] = some msgPrice := by
    have h0 : selectedMessage [msgHi, msgPrice] =
        (([msgHi, msgPrice].filter qualifies).mergeSort createdLE).getLast? := rfl
    have hsor : List.Pairwise (fun a b => createdLE a b = true) [msgHi, msgPrice] := by
      simp [List.pairwise_cons, createdLE, msgHi, msgPrice]
    rw [h0, show [msgHi, msgPrice].filter qualifies = [msgHi, msgPrice] from rfl,
      List.mergeSort_of_sorted hsor]
    rfl
  exact one_reply_newest_message envOneChat rawEmpty [{ id := "c1" }] { id := "c1" }
    [msgHi, msgPrice] msgPrice "Answer" rfl (by simp) (by simp) (by decide)
    (fun c2 h2 => by
      rcases List.mem_singleton.mp h2 with rfl
      exact Or.inr ⟨[msgHi, msgPrice], rfl⟩)
    rfl hsel rfl rfl

end Avito
